import Mathlib

/-!
go-service: correlation and logging middleware, route handlers.

A shallow embedding of `go-service/main.go`.

* Go strings are Lean strings, Go `int` is `Int`, a byte is a `Fin 256`.
* A handler is embedded as the ordered list of effects it performs on its
  response writer, on the logger and on the clock (`Effect`), as a function of
  the request it receives.  `exec` runs such a list against a concrete
  response writer.
  A handler reads its request and does not change it (none of the handlers
  of the service does), so the middleware reads the same headers after `next`
  as before.
* A log record is what a log statement hands to the logger: a severity, the
  ordered fields and the message (the time stamp the logger adds is left out).
  `Outcome.log` is the sequence of records issued, oldest first; `written` is
  the part of it that passes the global severity threshold configured in
  `main`.
* The clock is idealised: it advances only in `time.Sleep`.
* Library code the program calls (`net/http`, `net`, `encoding/hex`,
  `strings`, `context`, `zerolog`) is embedded as far as the program uses it.
-/

namespace GoService

/-! ## Basic types -/

/-- A byte. -/
abbrev Byte := Fin 256

/-- Go `int`. -/
abbrev int := Int

/-- Dynamic (interface) values, as far as the program stores and compares them:
the nil interface, a string, or a value of some other dynamic type. -/
inductive any where
  | nil
  | string (s : String)
  | other (type : String) (repr : String)
deriving DecidableEq, Repr

/-- Type assertion `v.(string)`: `none` stands for the run-time panic. -/
def any.assertString : any → Option String
  | .string s => some s
  | _ => none

/-! ## strings, encoding/hex, crypto/rand -/

/-- Go `strings.Contains(s, substr)`: some suffix of `s` starts with `substr`. -/
def strings.Contains (s substr : String) : Bool :=
  s.toList.tails.any fun t => substr.toList.isPrefixOf t

/-- The table `hextable` of `encoding/hex`. -/
def hextable : List Char := "0123456789abcdef".toList

/-- Go `hex.Encode`: two table characters per byte, `hextable[v>>4]` and
`hextable[v&0x0f]`. -/
def hex.Encode : List Byte → List Char
  | [] => []
  | v :: rest => hextable.getD (v.val / 16) '0' :: hextable.getD (v.val % 16) '0' :: hex.Encode rest

/-- Go `hex.EncodeToString`. -/
def hex.EncodeToString (src : List Byte) : String := String.mk (hex.Encode src)

/-- Go `rand.Read(b)`: the bytes the random source delivered (`rnd`, possibly
fewer than `len(b)` when the read fails) overwrite the front of `b`; the rest of
`b` is left as it was. -/
def rand.Read (b : List Byte) (rnd : List Byte) : List Byte :=
  rnd.take b.length ++ b.drop rnd.length

/-- Source `reqID` (lines 29-33): 8 zeroed bytes, filled by the random source,
hex encoded; the result of the read is ignored. -/
def reqID (rnd : List Byte) : String :=
  let b : List Byte := List.replicate 8 0
  let b := rand.Read b rnd
  hex.EncodeToString b

/-! ## net/http headers, net/url values, context -/

/-- The bytes `textproto` accepts in a header field name (token characters). -/
def validHeaderFieldByte (c : Char) : Bool :=
  c.isAlphanum || c.toNat ∈ [33, 35, 36, 37, 38, 39, 42, 43, 45, 46, 94, 95, 96, 124, 126]

/-- The rewriting loop of `textproto.CanonicalMIMEHeaderKey`: upper case at the
start and after a hyphen, lower case elsewhere. -/
def canonicalLoop : Bool → List Char → List Char
  | _, [] => []
  | upper, c :: rest =>
    (if upper then c.toUpper else c.toLower) :: canonicalLoop (c == '-') rest

/-- Go `textproto.CanonicalMIMEHeaderKey`: a key holding a byte that is not a
token character is returned unchanged. -/
def CanonicalMIMEHeaderKey (s : String) : String :=
  if s.toList.all validHeaderFieldByte then String.mk (canonicalLoop true s.toList) else s

/-- Go `http.Header`: canonical key to list of values. -/
abbrev http.Header := List (String × List String)

/-- Go `Header.Get`: the first value under the canonical form of `key`, or `""`. -/
def http.Header.Get (h : http.Header) (key : String) : String :=
  match h.lookup (CanonicalMIMEHeaderKey key) with
  | some (v :: _) => v
  | _ => ""

/-- Go `Header.Set`: the canonical key now maps to the single value. -/
def http.Header.Set (h : http.Header) (key value : String) : http.Header :=
  (CanonicalMIMEHeaderKey key, [value]) :: h.filter fun kv => kv.1 != CanonicalMIMEHeaderKey key

/-- Go `url.Values`: key to list of values. -/
abbrev url.Values := List (String × List String)

/-- Go `Values.Get`: the first value under `key`, or `""`. -/
def url.Values.Get (v : url.Values) (key : String) : String :=
  match v.lookup key with
  | some (x :: _) => x
  | _ => ""

/-- Go `url.URL`, with the parsed query (the result of `URL.Query()`) in place
of the raw query string. -/
structure url.URL where
  Path : String
  query : url.Values
deriving DecidableEq, Repr

/-- Go `URL.Query()`. -/
def url.URL.Query (u : url.URL) : url.Values := u.query

/-- Go `context.Context`, as a chain of key/value bindings. -/
inductive context.Context where
  | Background
  | valueCtx (parent : context.Context) (key val : any)
deriving DecidableEq, Repr

/-- Go `context.WithValue`. -/
def context.WithValue (parent : context.Context) (key val : any) : context.Context :=
  .valueCtx parent key val

/-- Go `Context.Value`: the innermost binding of `key`, nil when there is none. -/
def context.Context.Value : context.Context → any → any
  | .Background, _ => .nil
  | .valueCtx parent k v, key => if k = key then v else parent.Value key

/-- Go `http.Request`, with the fields the program reads. -/
structure http.Request where
  Method : String
  URL : url.URL
  ProtoMajor : Nat
  ProtoMinor : Nat
  Header : http.Header
  RemoteAddr : String
  RequestURI : String
  ctx : context.Context
deriving DecidableEq, Repr

/-- Go `Request.Context()`. -/
def http.Request.Context (r : http.Request) : context.Context := r.ctx

/-- Go `Request.WithContext`: a copy of the request with the context replaced. -/
def http.Request.WithContext (r : http.Request) (ctx : context.Context) : http.Request :=
  { r with ctx := ctx }

/-- Go `Request.UserAgent()`. -/
def http.Request.UserAgent (r : http.Request) : String := r.Header.Get "User-Agent"

/-- Go `Request.ProtoAtLeast`. -/
def http.Request.ProtoAtLeast (r : http.Request) (major minor : Nat) : Bool :=
  decide (r.ProtoMajor > major) || (decide (r.ProtoMajor = major) && decide (r.ProtoMinor ≥ minor))

/-! ## zerolog -/

/-- The severities of zerolog. -/
inductive Level where
  | DebugLevel
  | InfoLevel
  | WarnLevel
  | ErrorLevel
  | FatalLevel
  | PanicLevel
  | NoLevel
  | Disabled
  | TraceLevel
deriving DecidableEq, Repr

/-- The numeric value zerolog gives each severity. -/
def Level.toInt : Level → Int
  | .DebugLevel => 0
  | .InfoLevel => 1
  | .WarnLevel => 2
  | .ErrorLevel => 3
  | .FatalLevel => 4
  | .PanicLevel => 5
  | .NoLevel => 6
  | .Disabled => 7
  | .TraceLevel => -1

/-- The value of one field of a log record. -/
inductive FieldValue where
  | str (s : String)
  | int (i : Int)
deriving DecidableEq, Repr

/-- A structured log record: severity, ordered fields, message. -/
structure LogRecord where
  level : Level
  fields : List (String × FieldValue)
  message : String
deriving DecidableEq, Repr

/-- The value of field `key` of a record. -/
def LogRecord.field (rec : LogRecord) (key : String) : Option FieldValue :=
  rec.fields.lookup key

/-- The records of `log` that pass the global severity threshold `global`
(`zerolog.SetGlobalLevel` in `main`): a record is written when its severity is
not below the threshold. -/
def written (global : Level) (log : List LogRecord) : List LogRecord :=
  log.filter fun rec => decide (global.toInt ≤ rec.level.toInt)

/-- A zerolog event under construction. -/
structure Event where
  level : Level
  fields : List (String × FieldValue)
deriving DecidableEq, Repr

/-- Go `log.Debug()`. -/
def log.Debug : Event := { level := .DebugLevel, fields := [] }

/-- Go `log.Info()`. -/
def log.Info : Event := { level := .InfoLevel, fields := [] }

/-- Go `log.Warn()`. -/
def log.Warn : Event := { level := .WarnLevel, fields := [] }

/-- Go `log.Error()`. -/
def log.Error : Event := { level := .ErrorLevel, fields := [] }

/-- Go `Event.Str`. -/
def Event.Str (e : Event) (key val : String) : Event :=
  { e with fields := e.fields ++ [(key, .str val)] }

/-- Go `Event.Int`. -/
def Event.Int (e : Event) (key : String) (i : int) : Event :=
  { e with fields := e.fields ++ [(key, .int i)] }

/-- Go `Event.Int64`. -/
def Event.Int64 (e : Event) (key : String) (i : int) : Event :=
  { e with fields := e.fields ++ [(key, .int i)] }

/-! ## Handlers as effect lists -/

/-- One step of a handler: a call on its response writer, a log statement, a
sleep, or a run-time panic (which ends the run). -/
inductive Effect where
  | HeaderSet (key value : String)
  | WriteHeader (code : int)
  | Write (data : String)
  | Log (rec : LogRecord)
  | Sleep (ms : Nat)
  | Panic (msg : String)
deriving DecidableEq, Repr

/-- Go `Event.Msg`: the log statement that issues the record. -/
def Event.Msg (e : Event) (msg : String) : Effect :=
  .Log { level := e.level, fields := e.fields, message := msg }

/-- Go `http.Handler`: the effects of `ServeHTTP(w, r)`, in program order. -/
abbrev http.Handler := http.Request → List Effect

/-- Go `http.ResponseWriter`.  `WriteHeader` returns `none` when the call
panics. -/
class http.ResponseWriter (W : Type) where
  HeaderSet : W → String → String → W
  WriteHeader : W → int → Option W
  Write : W → String → W

/-- The response sink, with the behaviour of `httptest.ResponseRecorder`: the
status code and the body the handler produced. -/
structure ResponseRecorder where
  Code : int
  HeaderMap : http.Header
  Body : String
  wroteHeader : Bool
deriving DecidableEq, Repr

/-- Go `httptest.NewRecorder()`. -/
def NewRecorder : ResponseRecorder :=
  { Code := 200, HeaderMap := [], Body := "", wroteHeader := false }

/-- Go `ResponseRecorder.WriteHeader`: only the first call takes effect; a code
outside 100..999 panics. -/
def ResponseRecorder.WriteHeader (rw : ResponseRecorder) (code : int) : Option ResponseRecorder :=
  if rw.wroteHeader then some rw
  else if code < 100 ∨ code > 999 then none
  else some { rw with Code := code, wroteHeader := true }

/-- Go `ResponseRecorder.Write`: an implicit status 200 when no header was
written yet, then the data is appended to the body. -/
def ResponseRecorder.Write (rw : ResponseRecorder) (data : String) : ResponseRecorder :=
  let rw := if rw.wroteHeader then rw else { rw with Code := 200, wroteHeader := true }
  { rw with Body := rw.Body ++ data }

instance : http.ResponseWriter ResponseRecorder where
  HeaderSet rw k v := { rw with HeaderMap := rw.HeaderMap.Set k v }
  WriteHeader := ResponseRecorder.WriteHeader
  Write := ResponseRecorder.Write

/-- Source `statusWriter` (lines 19-22): the embedded response writer and the
captured status. -/
structure statusWriter (W : Type) where
  ResponseWriter : W
  status : int

/-- Source `statusWriter.WriteHeader` (lines 24-27): store the code, then
forward the call to the embedded writer. -/
def statusWriter.WriteHeader {W : Type} [http.ResponseWriter W] (w : statusWriter W) (code : int) :
    Option (statusWriter W) :=
  let w := { w with status := code }
  match http.ResponseWriter.WriteHeader w.ResponseWriter code with
  | none => none
  | some inner => some { w with ResponseWriter := inner }

/-- The methods `statusWriter` gets from the embedded writer (`Header`, `Write`)
are forwarded unchanged; `WriteHeader` is the one it overrides. -/
instance {W : Type} [http.ResponseWriter W] : http.ResponseWriter (statusWriter W) where
  HeaderSet w k v := { w with ResponseWriter := http.ResponseWriter.HeaderSet w.ResponseWriter k v }
  WriteHeader := statusWriter.WriteHeader
  Write w data := { w with ResponseWriter := http.ResponseWriter.Write w.ResponseWriter data }

/-- What a run of a handler leaves behind: the response writer, the records
issued (oldest first), the time slept in milliseconds, and whether the run ended
in a panic instead of returning. -/
structure Outcome (W : Type) where
  w : W
  log : List LogRecord
  elapsed : Nat
  panicked : Bool

/-- Run a list of effects, in order, from the state `o`.  A panic stops the run. -/
def exec {W : Type} [http.ResponseWriter W] : List Effect → Outcome W → Outcome W
  | [], o => o
  | .HeaderSet k v :: rest, o => exec rest { o with w := http.ResponseWriter.HeaderSet o.w k v }
  | .WriteHeader code :: rest, o =>
    match http.ResponseWriter.WriteHeader o.w code with
    | none => { o with panicked := true }
    | some w => exec rest { o with w := w }
  | .Write data :: rest, o => exec rest { o with w := http.ResponseWriter.Write o.w data }
  | .Log rec :: rest, o => exec rest { o with log := o.log ++ [rec] }
  | .Sleep ms :: rest, o => exec rest { o with elapsed := o.elapsed + ms }
  | .Panic _ :: _, o => { o with panicked := true }

/-- Go `h.ServeHTTP(w, r)`: run handler `h` on request `r` against writer `w`. -/
def ServeHTTP {W : Type} [http.ResponseWriter W] (h : http.Handler) (w : W) (r : http.Request) :
    Outcome W :=
  exec (h r) { w := w, log := [], elapsed := 0, panicked := false }

/-! ## net.SplitHostPort -/

/-- Go `IndexByte`: position of the first `c` in `s`. -/
def indexByte (s : List Char) (c : Char) : Option Nat :=
  if s.indexOf c < s.length then some (s.indexOf c) else none

/-- Go `LastIndexByte`: position of the last `c` in `s`. -/
def lastIndexByte (s : List Char) (c : Char) : Option Nat :=
  if s.reverse.indexOf c < s.length then some (s.length - 1 - s.reverse.indexOf c) else none

/-- The error return of `net.SplitHostPort`: empty host, empty port, an error. -/
def addrErr (why : String) : String × String × Option String := ("", "", some why)

/-- The tail of `net.SplitHostPort`, after the host was found: no `[` from
position `j` on, no `]` from position `k` on, and the port is what follows the
last colon (position `i`). -/
def splitFinish (s host : List Char) (i j k : Nat) : String × String × Option String :=
  if (indexByte (s.drop j) '[').isSome then addrErr "unexpected '[' in address"
  else if (indexByte (s.drop k) ']').isSome then addrErr "unexpected ']' in address"
  else (String.mk host, String.mk (s.drop (i + 1)), none)

/-- Go `net.SplitHostPort`: host, port and error (`none` is the nil error). -/
def net.SplitHostPort (hostport : String) : String × String × Option String :=
  let s := hostport.toList
  match lastIndexByte s ':' with
  | none => addrErr "missing port in address"
  | some i =>
    if s.head? = some '[' then
      match indexByte s ']' with
      | none => addrErr "missing ']' in address"
      | some e =>
        if e + 1 = s.length then addrErr "missing port in address"
        else if e + 1 = i then splitFinish s ((s.take e).drop 1) i 1 (e + 1)
        else if s.get? (e + 1) = some ':' then addrErr "too many colons in address"
        else addrErr "missing port in address"
    else
      let host := s.take i
      if (indexByte host ':').isSome then addrErr "too many colons in address"
      else splitFinish s host i 0 0

/-! ## http.ServeMux -/

/-- The pieces of a path between slashes. -/
def splitSlash : List Char → List (List Char)
  | [] => [[]]
  | c :: rest =>
    match splitSlash rest with
    | [] => [[]]
    | seg :: segs => if c = '/' then [] :: seg :: segs else (c :: seg) :: segs

/-- The element rules of `path.Clean`: empty and `.` elements are dropped, a
`..` element removes the element before it (at the root it is dropped, in a
relative path a leading `..` is kept).  `out` is the result so far, reversed. -/
def cleanSegments (rooted : Bool) : List (List Char) → List (List Char) → List (List Char)
  | [], out => out.reverse
  | seg :: rest, out =>
    if seg = [] ∨ seg = ['.'] then cleanSegments rooted rest out
    else if seg = ['.', '.'] then
      match out with
      | top :: below =>
        if top = ['.', '.'] then cleanSegments rooted rest (seg :: out)
        else cleanSegments rooted rest below
      | [] => if rooted then cleanSegments rooted rest [] else cleanSegments rooted rest [seg]
    else cleanSegments rooted rest (seg :: out)

/-- Go `path.Clean`. -/
def path.Clean (p : String) : String :=
  if p = "" then "."
  else
    let rooted := p.toList.head? == some '/'
    let body := "/".intercalate ((cleanSegments rooted (splitSlash p.toList) []).map String.mk)
    let out := (if rooted then "/" else "") ++ body
    if out = "" then "." else out

/-- Go `cleanPath` of `net/http`: the canonical form of a request path, with a
trailing slash kept. -/
def cleanPath (p : String) : String :=
  if p = "" then "/"
  else
    let p := if p.toList.head? = some '/' then p else "/" ++ p
    let np := path.Clean p
    if p.toList.getLast? = some '/' ∧ np ≠ "/" then np ++ "/" else np

/-- Go `http.Error`: plain-text headers, the status code, the message and a
newline (the header deletions of recent library versions are left out). -/
def http.Error (error : String) (code : int) : List Effect :=
  [ .HeaderSet "Content-Type" "text/plain; charset=utf-8",
    .HeaderSet "X-Content-Type-Options" "nosniff",
    .WriteHeader code,
    .Write (error ++ "\n") ]

/-! ## The program -/

/-- Source `helloHandler` (lines 69-78).  The type assertion `id.(string)` is
evaluated while the debug event is built. -/
def helloHandler : http.Handler := fun r =>
  let id := r.Context.Value (.string "req_id")
  match id.assertString with
  | none => [.Panic "interface conversion: interface is not string"]
  | some id =>
    [ log.Debug |>.Str "component" "app" |>.Str "request_id" id |>.Msg "handling hello",
      .HeaderSet "Content-Type" "text/plain; charset=utf-8",
      .Write "hello from go-log-service\n" ]

/-- Source `workHandler` (lines 80-99). -/
def workHandler : http.Handler := fun r =>
  match (r.Context.Value (.string "req_id")).assertString with
  | none => [.Panic "interface conversion: interface is not string"]
  | some id =>
    let task := r.URL.Query.Get "task"
    let task := if task = "" then "simulate" else task
    [ log.Info |>.Str "component" "worker" |>.Str "request_id" id |>.Str "task" task
        |>.Msg "starting work",
      .Sleep 150 ] ++
    if strings.Contains task "fail" then
      [ log.Error |>.Str "component" "worker" |>.Str "request_id" id |>.Str "task" task
          |>.Msg "work failed" ] ++
      http.Error "failed" 500
    else
      [ log.Warn |>.Str "component" "worker" |>.Str "request_id" id |>.Str "task" task
          |>.Msg "work had minor issues",
        log.Info |>.Str "component" "worker" |>.Str "request_id" id |>.Str "task" task
          |>.Msg "work done",
        .WriteHeader 200,
        .Write "ok\n" ]

/-- Source `healthHandler` (lines 101-104). -/
def healthHandler : http.Handler := fun _ =>
  [ .WriteHeader 200, .Write "healthy\n" ]

/-- The `http.ServeMux` built in `main` (lines 123-126), with the patterns `/`,
`/work` and `/healthz`.  A request for `*` is answered 400; a request whose path
is not in canonical form is redirected to the canonical path (the HTML body of
the redirect is left out); otherwise the longest matching pattern wins: the two
exact paths, then `/` for every other rooted path. -/
def mux : http.Handler := fun r =>
  if r.RequestURI = "*" then
    (if r.ProtoAtLeast 1 1 then [Effect.HeaderSet "Connection" "close"] else []) ++
    [.WriteHeader 400]
  else if r.Method ≠ "CONNECT" ∧ cleanPath r.URL.Path ≠ r.URL.Path then
    [.HeaderSet "Location" (cleanPath r.URL.Path), .WriteHeader 301]
  else if r.URL.Path = "/work" then workHandler r
  else if r.URL.Path = "/healthz" then healthHandler r
  else if r.URL.Path.toList.head? = some '/' then helloHandler r
  else http.Error "404 page not found" 404

/-- Source `logging` (lines 35-67): the handler `logging(next)`, run on request
`r` against writer `w`; `rnd` is what the random source delivers if asked.  The
middleware does not recover a panic of `next`: then nothing more happens. -/
def logging (next : http.Handler) (rnd : List Byte) {W : Type} [http.ResponseWriter W]
    (w : W) (r : http.Request) : Outcome W :=
  let sw : statusWriter W := { ResponseWriter := w, status := 200 }
  let id := r.Header.Get "X-Request-ID"
  let id := if id = "" then reqID rnd else id
  let ctx := r.Context
  let ctx := context.WithValue ctx (.string "req_id") (.string id)
  let r := r.WithContext ctx
  let run := ServeHTTP next sw r
  if run.panicked then
    { w := run.w.ResponseWriter, log := run.log, elapsed := run.elapsed, panicked := true }
  else
    let remoteIP := r.Header.Get "X-Forwarded-For"
    let remoteIP := if remoteIP = "" then (net.SplitHostPort r.RemoteAddr).1 else remoteIP
    exec
      [ log.Info
          |>.Str "component" "http"
          |>.Str "request_id" id
          |>.Str "method" r.Method
          |>.Str "path" r.URL.Path
          |>.Int "status" run.w.status
          |>.Str "user_agent" r.UserAgent
          |>.Str "remote_ip" remoteIP
          |>.Int64 "duration_ms" run.elapsed
          |>.Msg "request completed" ]
      { w := run.w.ResponseWriter, log := run.log, elapsed := run.elapsed, panicked := false }

/-- The handler chain installed in `main` (line 130): `logging(mux)`. -/
def serve (rnd : List Byte) (w : ResponseRecorder) (r : http.Request) : Outcome ResponseRecorder :=
  logging mux rnd w r

/-! ## Vocabulary for the statements -/

/-- The value of the local variable `id` of `logging` after lines 40-43. -/
def logging.correlationID (rnd : List Byte) (r : http.Request) : String :=
  let id := r.Header.Get "X-Request-ID"
  if id = "" then reqID rnd else id

/-- The request `logging` hands to `next` (lines 44-46). -/
def logging.request (rnd : List Byte) (r : http.Request) : http.Request :=
  r.WithContext
    (context.WithValue r.Context (.string "req_id") (.string (logging.correlationID rnd r)))

/-- The run of `next` inside `logging` (line 48), against the fresh status
wrapper of line 38. -/
def logging.run (next : http.Handler) (rnd : List Byte) {W : Type} [http.ResponseWriter W]
    (w : W) (r : http.Request) : Outcome (statusWriter W) :=
  ServeHTTP next ({ ResponseWriter := w, status := 200 } : statusWriter W) (logging.request rnd r)

/-- The value of the local variable `remoteIP` of `logging` after lines 50-54. -/
def logging.remoteIP (r : http.Request) : String :=
  let remoteIP := r.Header.Get "X-Forwarded-For"
  if remoteIP = "" then (net.SplitHostPort r.RemoteAddr).1 else remoteIP

/-- The record issued by the log statement of lines 56-65, for a captured
status and a duration. -/
def logging.record (rnd : List Byte) (r : http.Request) (status : int) (ms : Nat) : LogRecord :=
  { level := .InfoLevel,
    fields :=
      [ ("component", .str "http"),
        ("request_id", .str (logging.correlationID rnd r)),
        ("method", .str r.Method),
        ("path", .str r.URL.Path),
        ("status", .int status),
        ("user_agent", .str r.UserAgent),
        ("remote_ip", .str (logging.remoteIP r)),
        ("duration_ms", .int ms) ],
    message := "request completed" }

/-- A completion record: informational severity, component `http`, message
`request completed`. -/
def isCompletion (rec : LogRecord) : Bool :=
  rec.level == .InfoLevel && rec.field "component" == some (.str "http") &&
    rec.message == "request completed"

/-- The codes of the `WriteHeader` calls in a list of effects, in order. -/
def writeHeaderCodes : List Effect → List int
  | [] => []
  | .WriteHeader code :: rest => code :: writeHeaderCodes rest
  | _ :: rest => writeHeaderCodes rest

/-- The records of the log statements in a list of effects, in order. -/
def logStatements : List Effect → List LogRecord
  | [] => []
  | .Log rec :: rest => rec :: logStatements rest
  | _ :: rest => logStatements rest

/-- The value of a hexadecimal digit `0-9a-f`. -/
def hexDigitValue (c : Char) : Option Nat :=
  if '0' ≤ c ∧ c ≤ '9' then some (c.toNat - '0'.toNat)
  else if 'a' ≤ c ∧ c ≤ 'f' then some (c.toNat - 'a'.toNat + 10)
  else none

/-- Reading of a lowercase hexadecimal string as bytes, two digits per byte,
high digit first: what it means for a string to be the hex encoding of bytes. -/
def hexDecodeSpec : List Char → Option (List Nat)
  | [] => some []
  | [_] => none
  | hi :: lo :: rest =>
    match hexDigitValue hi, hexDigitValue lo, hexDecodeSpec rest with
    | some h, some l, some bs => some ((16 * h + l) :: bs)
    | _, _, _ => none

/-- A request `GET /healthz` over HTTP/1.1 with no headers. -/
def healthzRequest : http.Request :=
  { Method := "GET", URL := { Path := "/healthz", query := [] }, ProtoMajor := 1, ProtoMinor := 1,
    Header := [], RemoteAddr := "10.0.0.1:5555", RequestURI := "/healthz", ctx := .Background }

/-- A handler that sets the status twice: 404, then 500. -/
def twiceHandler : http.Handler := fun _ =>
  [ .WriteHeader 404, .WriteHeader 500, .Write "x" ]

/-- No effect of the list is a panic of the handler, and every status code
passed to `WriteHeader` is one the library accepts (100..999). -/
def noPanic : List Effect → Bool
  | [] => true
  | .Panic _ :: _ => false
  | .WriteHeader code :: rest => decide (100 ≤ code) && decide (code ≤ 999) && noPanic rest
  | _ :: rest => noPanic rest

/-! ## Shared lemmas -/

theorem Value_request (rnd : List Byte) (r : http.Request) :
    (logging.request rnd r).Context.Value (.string "req_id")
      = .string (logging.correlationID rnd r) := by
  simp [logging.request, http.Request.WithContext, http.Request.Context, context.WithValue,
    context.Context.Value]

theorem logging_eq (next : http.Handler) (rnd : List Byte) {W : Type}
    [http.ResponseWriter W] (w : W) (r : http.Request) :
    logging next rnd w r =
      if (logging.run next rnd w r).panicked then
        { w := (logging.run next rnd w r).w.ResponseWriter,
          log := (logging.run next rnd w r).log,
          elapsed := (logging.run next rnd w r).elapsed,
          panicked := true }
      else
        { w := (logging.run next rnd w r).w.ResponseWriter,
          log := (logging.run next rnd w r).log
            ++ [logging.record rnd r (logging.run next rnd w r).w.status
                  (logging.run next rnd w r).elapsed],
          elapsed := (logging.run next rnd w r).elapsed,
          panicked := false } := rfl

theorem logging_panicked (next : http.Handler) (rnd : List Byte) {W : Type}
    [http.ResponseWriter W] (w : W) (r : http.Request) :
    (logging next rnd w r).panicked = (logging.run next rnd w r).panicked := by
  rw [logging_eq]
  split
  · rename_i h
    simp [h]
  · rename_i h
    simpa using h

theorem logging_log (next : http.Handler) (rnd : List Byte) {W : Type}
    [http.ResponseWriter W] (w : W) (r : http.Request)
    (hret : (logging.run next rnd w r).panicked = false) :
    (logging next rnd w r).log
      = (logging.run next rnd w r).log
          ++ [logging.record rnd r (logging.run next rnd w r).w.status
                (logging.run next rnd w r).elapsed] := by
  rw [logging_eq, hret]
  simp

theorem logging_w (next : http.Handler) (rnd : List Byte) {W : Type}
    [http.ResponseWriter W] (w : W) (r : http.Request) :
    (logging next rnd w r).w = (logging.run next rnd w r).w.ResponseWriter := by
  rw [logging_eq]
  split <;> rfl

theorem record_isCompletion (rnd : List Byte) (r : http.Request) (status : int) (ms : Nat) :
    isCompletion (logging.record rnd r status ms) = true := by
  simp [isCompletion, logging.record, LogRecord.field, List.lookup]

theorem record_request_id (rnd : List Byte) (r : http.Request) (status : int) (ms : Nat) :
    (logging.record rnd r status ms).field "request_id"
      = some (.str (logging.correlationID rnd r)) := rfl

theorem record_status (rnd : List Byte) (r : http.Request) (status : int) (ms : Nat) :
    (logging.record rnd r status ms).field "status" = some (.int status) := rfl

theorem record_remote_ip (rnd : List Byte) (r : http.Request) (status : int) (ms : Nat) :
    (logging.record rnd r status ms).field "remote_ip" = some (.str (logging.remoteIP r)) := rfl

theorem correlationID_of_header (rnd : List Byte) (r : http.Request)
    (h : r.Header.Get "X-Request-ID" ≠ "") :
    logging.correlationID rnd r = r.Header.Get "X-Request-ID" := by
  simp [logging.correlationID, h]

theorem correlationID_of_no_header (rnd : List Byte) (r : http.Request)
    (h : r.Header.Get "X-Request-ID" = "") :
    logging.correlationID rnd r = reqID rnd := by
  simp [logging.correlationID, h]

/-! ## C1: a request id header is reused verbatim -/

/-- C1: when the `X-Request-ID` header of the request is a non-empty string
`v`, the request handed to `next` carries `v` under the context key `req_id`,
and, when `next` returns, the log is what `next` issued followed by the
completion record, whose `request_id` field is `v`.  The random source plays no
part: the outcome is the same whatever it would deliver. -/
theorem C1_header_id_reused (next : http.Handler) (rnd : List Byte) {W : Type}
    [http.ResponseWriter W] (w : W) (r : http.Request) (v : String)
    (hv : r.Header.Get "X-Request-ID" = v) (hne : v ≠ "") :
    logging.request rnd r
        = r.WithContext (context.WithValue r.Context (.string "req_id") (.string v)) ∧
      (logging.request rnd r).Context.Value (.string "req_id") = .string v ∧
      ((logging.run next rnd w r).panicked = false →
        ∃ rec, (logging next rnd w r).log = (logging.run next rnd w r).log ++ [rec] ∧
          isCompletion rec = true ∧ rec.field "request_id" = some (.str v)) ∧
      (∀ rnd2 : List Byte, logging next rnd2 w r = logging next rnd w r) := by
  have hid : ∀ rnd1 : List Byte, logging.correlationID rnd1 r = v := fun rnd1 => by
    rw [correlationID_of_header rnd1 r (by rw [hv]; exact hne), hv]
  have hreq : ∀ rnd1 : List Byte, logging.request rnd1 r
      = r.WithContext (context.WithValue r.Context (.string "req_id") (.string v)) := fun rnd1 => by
    simp [logging.request, hid rnd1]
  refine ⟨hreq rnd, ?_, ?_, ?_⟩
  · rw [Value_request, hid]
  · intro hret
    refine ⟨_, logging_log next rnd w r hret, record_isCompletion _ _ _ _, ?_⟩
    rw [record_request_id, hid]
  · intro rnd2
    have hrun : logging.run next rnd2 w r = logging.run next rnd w r := by
      simp [logging.run, hreq]
    have hrec : ∀ (st : int) (ms : Nat), logging.record rnd2 r st ms = logging.record rnd r st ms := by
      intro st ms
      simp [logging.record, hid]
    rw [logging_eq, logging_eq, hrun]
    simp [hrec]

/-- C1 witness: a request carrying `X-Request-ID: abc123`, served by the health
handler. -/
theorem C1_header_id_reused_witness :
    http.Header.Get [("X-Request-Id", ["abc123"])] "X-Request-ID" = "abc123" ∧ "abc123" ≠ "" ∧
      (logging.request [] { healthzRequest with Header := [("X-Request-Id", ["abc123"])] }).Context.Value
        (.string "req_id") = .string "abc123" ∧
      ∃ rec, (logging healthHandler [] NewRecorder
          { healthzRequest with Header := [("X-Request-Id", ["abc123"])] }).log = [rec] ∧
        rec.field "request_id" = some (.str "abc123") :=
  ⟨by decide, by decide,
    (C1_header_id_reused healthHandler [] NewRecorder
      { healthzRequest with Header := [("X-Request-Id", ["abc123"])] } "abc123"
      (by decide) (by decide)).2.1,
    by
      obtain ⟨rec, h1, _, h3⟩ := (C1_header_id_reused healthHandler [] NewRecorder
        { healthzRequest with Header := [("X-Request-Id", ["abc123"])] } "abc123"
        (by decide) (by decide)).2.2.1 (by decide)
      exact ⟨rec, h1, h3⟩⟩

/-! ## C2: a generated request id is 16 lowercase hex characters -/

theorem hexDigitValue_hextable (d : Fin 16) :
    hexDigitValue (hextable.getD d.val '0') = some d.val := by
  revert d
  decide

theorem hextable_mem (d : Fin 16) : hextable.getD d.val '0' ∈ hextable := by
  revert d
  decide

theorem Encode_length (bs : List Byte) : (hex.Encode bs).length = 2 * bs.length := by
  induction bs with
  | nil => rfl
  | cons v rest ih => simp [hex.Encode, ih]; omega

theorem Encode_mem (bs : List Byte) : ∀ c ∈ hex.Encode bs, c ∈ hextable := by
  induction bs with
  | nil => simp [hex.Encode]
  | cons v rest ih =>
    intro c hc
    simp only [hex.Encode, List.mem_cons] at hc
    rcases hc with rfl | rfl | hc
    · exact hextable_mem ⟨v.val / 16, by omega⟩
    · exact hextable_mem ⟨v.val % 16, by omega⟩
    · exact ih c hc

theorem Encode_decode (bs : List Byte) :
    hexDecodeSpec (hex.Encode bs) = some (bs.map fun v => v.val) := by
  induction bs with
  | nil => rfl
  | cons v rest ih =>
    have hhi := hexDigitValue_hextable ⟨v.val / 16, by omega⟩
    have hlo := hexDigitValue_hextable ⟨v.val % 16, by omega⟩
    simp only [] at hhi hlo
    simp only [hex.Encode, hexDecodeSpec, hhi, hlo, ih, List.map_cons]
    congr 2
    omega

theorem Read_length (b rnd : List Byte) : (rand.Read b rnd).length = b.length := by
  simp [rand.Read]
  omega

/-- C2: when the request has no `X-Request-ID` header value, then for every
outcome `rnd` of the random read the correlation id is `reqID rnd`: the hex
encoding of 8 bytes (the bytes read, zero where the read delivered none), a
string of exactly 16 characters, each one of `0-9a-f`, which reads back as those
8 bytes.  That id is the one stored under `req_id` for `next` and the one in the
completion record. -/
theorem C2_generated_id_hex (next : http.Handler) (rnd : List Byte) {W : Type}
    [http.ResponseWriter W] (w : W) (r : http.Request)
    (h : r.Header.Get "X-Request-ID" = "") :
    (rand.Read (List.replicate 8 0) rnd).length = 8 ∧
      reqID rnd = hex.EncodeToString (rand.Read (List.replicate 8 0) rnd) ∧
      (reqID rnd).length = 16 ∧
      (∀ c ∈ (reqID rnd).toList, c ∈ "0123456789abcdef".toList) ∧
      hexDecodeSpec (reqID rnd).toList
        = some ((rand.Read (List.replicate 8 0) rnd).map fun v => v.val) ∧
      (logging.request rnd r).Context.Value (.string "req_id") = .string (reqID rnd) ∧
      ((logging.run next rnd w r).panicked = false →
        ∃ rec, (logging next rnd w r).log = (logging.run next rnd w r).log ++ [rec] ∧
          isCompletion rec = true ∧ rec.field "request_id" = some (.str (reqID rnd))) := by
  have hlen : (rand.Read (List.replicate 8 0) rnd).length = 8 := by
    rw [Read_length]; simp
  have hid := correlationID_of_no_header rnd r h
  refine ⟨hlen, rfl, ?_, ?_, ?_, ?_, ?_⟩
  · simp only [reqID, hex.EncodeToString, String.length, Encode_length, hlen]
  · intro c hc
    exact Encode_mem _ c hc
  · exact Encode_decode _
  · rw [Value_request, hid]
  · intro hret
    refine ⟨_, logging_log next rnd w r hret, record_isCompletion _ _ _ _, ?_⟩
    rw [record_request_id, hid]

/-- C2 witness: a request without headers; the random read fails after three
bytes. -/
theorem C2_generated_id_hex_witness :
    http.Header.Get healthzRequest.Header "X-Request-ID" = "" ∧
      reqID [1, 2, 255] = "0102ff0000000000" ∧
      (reqID [1, 2, 255]).length = 16 ∧
      (logging.request [1, 2, 255] healthzRequest).Context.Value (.string "req_id")
        = .string (reqID [1, 2, 255]) :=
  ⟨by decide, by decide,
    (C2_generated_id_hex healthHandler [1, 2, 255] NewRecorder healthzRequest (by decide)).2.2.1,
    (C2_generated_id_hex healthHandler [1, 2, 255] NewRecorder healthzRequest
      (by decide)).2.2.2.2.2.1⟩

/-! ## Running effect lists -/

theorem exec_log {W : Type} [http.ResponseWriter W] (effects : List Effect) (o : Outcome W)
    (hret : (exec effects o).panicked = false) :
    (exec effects o).log = o.log ++ logStatements effects := by
  induction effects generalizing o with
  | nil => simp [exec, logStatements]
  | cons e rest ih =>
    cases e with
    | HeaderSet k v =>
      simp only [exec] at hret ⊢
      rw [ih _ hret]; simp [logStatements]
    | WriteHeader code =>
      simp only [exec] at hret ⊢
      cases hw : http.ResponseWriter.WriteHeader o.w code with
      | none => simp [hw] at hret
      | some w1 =>
        simp only [hw] at hret ⊢
        rw [ih _ hret]; simp [logStatements]
    | Write data =>
      simp only [exec] at hret ⊢
      rw [ih _ hret]; simp [logStatements]
    | Log rec =>
      simp only [exec] at hret ⊢
      rw [ih _ hret]; simp [logStatements]
    | Sleep ms =>
      simp only [exec] at hret ⊢
      rw [ih _ hret]; simp [logStatements]
    | Panic msg => simp [exec] at hret

theorem getLast_getD_cons (c d : int) (l : List int) :
    (c :: l).getLast?.getD d = l.getLast?.getD c := by
  cases l with
  | nil => rfl
  | cons x xs =>
    rw [List.getLast?_cons_cons, List.getLast?_eq_getLast (x :: xs) (List.cons_ne_nil x xs)]
    rfl

theorem exec_status {W : Type} [http.ResponseWriter W] (effects : List Effect)
    (o : Outcome (statusWriter W)) (hret : (exec effects o).panicked = false) :
    (exec effects o).w.status = (writeHeaderCodes effects).getLast?.getD o.w.status := by
  induction effects generalizing o with
  | nil => simp [exec, writeHeaderCodes]
  | cons e rest ih =>
    cases e with
    | HeaderSet k v =>
      simp only [exec] at hret ⊢
      rw [ih _ hret]; rfl
    | WriteHeader code =>
      simp only [exec] at hret ⊢
      cases hw : http.ResponseWriter.WriteHeader o.w code with
      | none => simp [hw] at hret
      | some w1 =>
        simp only [hw] at hret ⊢
        rw [ih _ hret, writeHeaderCodes, getLast_getD_cons]
        have hst : w1.status = code := by
          have hw2 : statusWriter.WriteHeader o.w code = some w1 := hw
          unfold statusWriter.WriteHeader at hw2
          simp only [] at hw2
          split at hw2
          · simp at hw2
          · simp only [Option.some.injEq] at hw2
            rw [← hw2]
        simp [hst]
    | Write data =>
      simp only [exec] at hret ⊢
      rw [ih _ hret]; rfl
    | Log rec =>
      simp only [exec] at hret ⊢
      rw [ih _ hret]; rfl
    | Sleep ms =>
      simp only [exec] at hret ⊢
      rw [ih _ hret]; rfl
    | Panic msg => simp [exec] at hret

theorem exec_returns {W : Type} [http.ResponseWriter W]
    (hW : ∀ (w : W) (code : int), 100 ≤ code → code ≤ 999 →
      (http.ResponseWriter.WriteHeader w code).isSome = true)
    (effects : List Effect) (o : Outcome W) (ho : o.panicked = false)
    (hsafe : noPanic effects = true) :
    (exec effects o).panicked = false := by
  induction effects generalizing o with
  | nil => simpa [exec] using ho
  | cons e rest ih =>
    cases e with
    | HeaderSet k v => exact ih _ ho (by simpa [noPanic] using hsafe)
    | WriteHeader code =>
      simp only [noPanic, Bool.and_eq_true, decide_eq_true_eq] at hsafe
      simp only [exec]
      have h := hW o.w code hsafe.1.1 hsafe.1.2
      cases hw : http.ResponseWriter.WriteHeader o.w code with
      | none => simp [hw] at h
      | some w1 => exact ih _ ho hsafe.2
    | Write data => exact ih _ ho (by simpa [noPanic] using hsafe)
    | Log rec => exact ih _ ho (by simpa [noPanic] using hsafe)
    | Sleep ms => exact ih _ ho (by simpa [noPanic] using hsafe)
    | Panic msg => simp [noPanic] at hsafe

theorem recorder_accepts (w : ResponseRecorder) (code : Int) (h1 : 100 ≤ code) (h2 : code ≤ 999) :
    (http.ResponseWriter.WriteHeader w code).isSome = true := by
  show (ResponseRecorder.WriteHeader w code).isSome = true
  unfold ResponseRecorder.WriteHeader
  split
  · rfl
  · split
    · rename_i hbad
      rcases hbad with hlo | hhi
      · exact absurd hlo (not_lt.mpr h1)
      · exact absurd hhi (not_lt.mpr h2)
    · rfl

theorem wrapper_accepts (w : statusWriter ResponseRecorder) (code : int) (h1 : 100 ≤ code)
    (h2 : code ≤ 999) : (http.ResponseWriter.WriteHeader w code).isSome = true := by
  show (statusWriter.WriteHeader w code).isSome = true
  have h := recorder_accepts w.ResponseWriter code h1 h2
  unfold statusWriter.WriteHeader
  simp only []
  split
  · rename_i hn
    simp [hn] at h
  · rfl

/-! ## C3: the status the wrapper remembers -/

/-- C3: evaluation at a handler that calls `WriteHeader(404)` and then
`WriteHeader(500)`.  The response carries the first code, 404, while the wrapper
remembers, and the completion record reports, the last code, 500. -/
theorem C3_wrapper_keeps_last_code :
    writeHeaderCodes (twiceHandler (logging.request [] healthzRequest)) = [404, 500] ∧
      (logging twiceHandler [] NewRecorder healthzRequest).panicked = false ∧
      (logging twiceHandler [] NewRecorder healthzRequest).w.Code = 404 ∧
      (logging.run twiceHandler [] NewRecorder healthzRequest).w.status = 500 ∧
      ((logging twiceHandler [] NewRecorder healthzRequest).log.map fun rec => rec.field "status")
        = [some (.int 500)] := by
  decide

/-! ## C4: the remote address in the completion record -/

theorem splitFinish_host (s host : List Char) (i j k : Nat) :
    (splitFinish s host i j k).2.2 = none ∨ (splitFinish s host i j k).1 = "" := by
  unfold splitFinish
  split_ifs <;> simp [addrErr]

theorem SplitHostPort_host (hostport : String) :
    (net.SplitHostPort hostport).2.2 = none ∨ (net.SplitHostPort hostport).1 = "" := by
  unfold net.SplitHostPort
  simp only []
  repeat' split
  all_goals first
    | exact Or.inr rfl
    | exact splitFinish_host _ _ _ _ _

theorem indexByte_none (s : List Char) (c : Char) (h : c ∉ s) : indexByte s c = none := by
  simp [indexByte, List.indexOf_of_not_mem h]

theorem lastIndexByte_join (host port : List Char) (c : Char) (hp : c ∉ port) :
    lastIndexByte (host ++ c :: port) c = some host.length := by
  have hrev : (host ++ c :: port).reverse = port.reverse ++ c :: host.reverse := by simp
  have hidx : (host ++ c :: port).reverse.indexOf c = port.length := by
    rw [hrev, List.indexOf_append_of_not_mem (by simpa using hp), List.indexOf_cons_self]
    simp
  unfold lastIndexByte
  rw [hidx]
  have hlen : (host ++ c :: port).length = host.length + port.length + 1 := by
    simp; omega
  rw [hlen, if_pos (by omega)]
  congr 1
  omega

theorem SplitHostPort_join (host port : String)
    (hh : ∀ c ∈ host.toList, c ≠ ':' ∧ c ≠ '[' ∧ c ≠ ']')
    (hp : ∀ c ∈ port.toList, c ≠ ':' ∧ c ≠ '[' ∧ c ≠ ']') :
    net.SplitHostPort (host ++ ":" ++ port) = (host, port, none) := by
  have hs : (host ++ ":" ++ port).toList = host.toList ++ ':' :: port.toList := by
    simp [String.toList]
  have h1 : ':' ∉ port.toList := fun h => (hp _ h).1 rfl
  have h2 : ':' ∉ host.toList := fun h => (hh _ h).1 rfl
  have h3 : '[' ∉ host.toList ++ ':' :: port.toList := by
    intro h
    rcases List.mem_append.mp h with h | h
    · exact (hh _ h).2.1 rfl
    · rcases List.mem_cons.mp h with h | h
      · exact absurd h (by decide)
      · exact (hp _ h).2.1 rfl
  have h4 : ']' ∉ host.toList ++ ':' :: port.toList := by
    intro h
    rcases List.mem_append.mp h with h | h
    · exact (hh _ h).2.2 rfl
    · rcases List.mem_cons.mp h with h | h
      · exact absurd h (by decide)
      · exact (hp _ h).2.2 rfl
  have hhead : ¬ ((host.toList ++ ':' :: port.toList).head? = some '[') := by
    intro h
    have := List.mem_of_mem_head? h
    exact h3 this
  unfold net.SplitHostPort
  simp only [hs, lastIndexByte_join _ _ _ h1, if_neg hhead, List.take_left,
    indexByte_none _ _ h2, Option.isSome_none, Bool.false_eq_true, if_false]
  unfold splitFinish
  simp only [List.drop_zero, indexByte_none _ _ h3, indexByte_none _ _ h4, Option.isSome_none,
    Bool.false_eq_true, if_false]
  have hd : (host.toList ++ ':' :: port.toList).drop (host.toList.length + 1) = port.toList := by
    rw [← List.drop_drop, List.drop_left]
    rfl
  rw [hd]
  rfl

/-- C4: when `next` returns, the last record of the log is the completion
record, and its `remote_ip` field is: the `X-Forwarded-For` header value when
that is non-empty; otherwise the host that `net.SplitHostPort` finds in
`RemoteAddr` when the split succeeds, and the empty string when it fails.  An
address `host:port` whose two parts hold no colon and no square bracket does
split, into exactly those parts. -/
theorem C4_remote_ip_order (next : http.Handler) (rnd : List Byte) {W : Type}
    [http.ResponseWriter W] (w : W) (r : http.Request)
    (hret : (logging.run next rnd w r).panicked = false) :
    (∃ rec, (logging next rnd w r).log.getLast? = some rec ∧ isCompletion rec = true ∧
      rec.field "remote_ip" = some (.str
        (if r.Header.Get "X-Forwarded-For" ≠ "" then r.Header.Get "X-Forwarded-For"
         else
          match net.SplitHostPort r.RemoteAddr with
          | (host, _, none) => host
          | (_, _, some _) => ""))) ∧
      ∀ host port : String,
        (∀ c ∈ host.toList, c ≠ ':' ∧ c ≠ '[' ∧ c ≠ ']') →
        (∀ c ∈ port.toList, c ≠ ':' ∧ c ≠ '[' ∧ c ≠ ']') →
        net.SplitHostPort (host ++ ":" ++ port) = (host, port, none) := by
  refine ⟨⟨logging.record rnd r (logging.run next rnd w r).w.status
    (logging.run next rnd w r).elapsed, ?_, record_isCompletion rnd r _ _, ?_⟩,
    SplitHostPort_join⟩
  · rw [logging_log next rnd w r hret]
    simp
  · rw [record_remote_ip]
    congr 2
    unfold logging.remoteIP
    simp only []
    by_cases hx : r.Header.Get "X-Forwarded-For" = ""
    · simp only [hx, if_true, ne_eq, not_true_eq_false, if_false]
      rcases SplitHostPort_host r.RemoteAddr with h | h
      · rcases hs : net.SplitHostPort r.RemoteAddr with ⟨host, port, err⟩
        rw [hs] at h
        simp only at h
        subst h
        rfl
      · rcases hs : net.SplitHostPort r.RemoteAddr with ⟨host, port, err⟩
        rw [hs] at h
        simp only at h
        subst h
        cases err <;> rfl
    · simp [hx]

/-- C4 witness: no forwarded-for header and the remote address `10.0.0.1:5555`. -/
theorem C4_remote_ip_order_witness :
    (logging.run healthHandler [] NewRecorder healthzRequest).panicked = false ∧
      ∃ rec, (logging healthHandler [] NewRecorder healthzRequest).log.getLast? = some rec ∧
        rec.field "remote_ip" = some (.str "10.0.0.1") :=
  ⟨by decide, by
    obtain ⟨rec, h1, _, h3⟩ :=
      (C4_remote_ip_order healthHandler [] NewRecorder healthzRequest (by decide)).1
    refine ⟨rec, h1, ?_⟩
    rw [h3]
    decide⟩

/-! ## The route handlers and the mux -/

theorem helloHandler_eq (r : http.Request) (id : String)
    (hctx : r.Context.Value (.string "req_id") = .string id) :
    helloHandler r =
      [ .Log { level := .DebugLevel,
               fields := [("component", .str "app"), ("request_id", .str id)],
               message := "handling hello" },
        .HeaderSet "Content-Type" "text/plain; charset=utf-8",
        .Write "hello from go-log-service\n" ] := by
  simp [helloHandler, hctx, any.assertString, Event.Msg, Event.Str, log.Debug]

theorem workHandler_eq (r : http.Request) (id : String)
    (hctx : r.Context.Value (.string "req_id") = .string id) :
    workHandler r =
      [ .Log { level := .InfoLevel,
               fields := [("component", .str "worker"), ("request_id", .str id),
                 ("task", .str (if r.URL.Query.Get "task" = "" then "simulate"
                   else r.URL.Query.Get "task"))],
               message := "starting work" },
        .Sleep 150 ] ++
      if strings.Contains
          (if r.URL.Query.Get "task" = "" then "simulate" else r.URL.Query.Get "task") "fail" then
        [ .Log { level := .ErrorLevel,
                 fields := [("component", .str "worker"), ("request_id", .str id),
                   ("task", .str (if r.URL.Query.Get "task" = "" then "simulate"
                     else r.URL.Query.Get "task"))],
                 message := "work failed" },
          .HeaderSet "Content-Type" "text/plain; charset=utf-8",
          .HeaderSet "X-Content-Type-Options" "nosniff",
          .WriteHeader 500,
          .Write "failed\n" ]
      else
        [ .Log { level := .WarnLevel,
                 fields := [("component", .str "worker"), ("request_id", .str id),
                   ("task", .str (if r.URL.Query.Get "task" = "" then "simulate"
                     else r.URL.Query.Get "task"))],
                 message := "work had minor issues" },
          .Log { level := .InfoLevel,
                 fields := [("component", .str "worker"), ("request_id", .str id),
                   ("task", .str (if r.URL.Query.Get "task" = "" then "simulate"
                     else r.URL.Query.Get "task"))],
                 message := "work done" },
          .WriteHeader 200,
          .Write "ok\n" ] := by
  unfold workHandler
  rw [hctx]
  simp only [any.assertString, Event.Msg, Event.Str, log.Info, log.Error, log.Warn, http.Error,
    List.nil_append, List.cons_append]
  split <;> rfl

theorem mux_trace (r : http.Request) (id : String)
    (hctx : r.Context.Value (.string "req_id") = .string id) :
    noPanic (mux r) = true ∧
      ∀ rec ∈ logStatements (mux r),
        isCompletion rec = false ∧ rec.field "request_id" = some (.str id) := by
  unfold mux
  split_ifs
  all_goals first
    | (rw [workHandler_eq r id hctx]
       split_ifs <;> simp [noPanic, logStatements, isCompletion, LogRecord.field, List.lookup])
    | (rw [helloHandler_eq r id hctx]
       simp [noPanic, logStatements, isCompletion, LogRecord.field, List.lookup])
    | simp [healthHandler, http.Error, noPanic, logStatements]

theorem serve_run_returns (rnd : List Byte) (w : ResponseRecorder) (r : http.Request) :
    (logging.run mux rnd w r).panicked = false :=
  exec_returns wrapper_accepts _ _ rfl (mux_trace _ _ (Value_request rnd r)).1

theorem serve_run_log (rnd : List Byte) (w : ResponseRecorder) (r : http.Request) :
    (logging.run mux rnd w r).log = logStatements (mux (logging.request rnd r)) := by
  have h := exec_log (mux (logging.request rnd r))
    ({ w := ({ ResponseWriter := w, status := 200 } : statusWriter ResponseRecorder),
       log := [], elapsed := 0, panicked := false })
    (serve_run_returns rnd w r)
  simpa [logging.run, ServeHTTP] using h

theorem written_append (g : Level) (l1 l2 : List LogRecord) :
    written g (l1 ++ l2) = written g l1 ++ written g l2 := by
  simp [written]

/-! ## C5: one completion record, after the records of the handler -/

/-- C5: when `next` returns, `logging(next)` returns, and its log is exactly the
records of the log statements `next` executed, in order, followed by one more
record, the completion record (informational, component `http`, message
`request completed`).  Under every severity threshold that admits informational
records the same holds of the records written.  For the chain of the service,
`logging(mux)`, every request returns, no record of a route handler is a
completion record, so the log holds exactly one, and it is the last. -/
theorem C5_one_completion_record (next : http.Handler) (rnd : List Byte) {W : Type}
    [http.ResponseWriter W] (w : W) (r : http.Request)
    (hret : (logging.run next rnd w r).panicked = false) :
    (logging next rnd w r).panicked = false ∧
      (∃ rec, isCompletion rec = true ∧
        (logging next rnd w r).log = logStatements (next (logging.request rnd r)) ++ [rec] ∧
        (logging next rnd w r).log.getLast? = some rec ∧
        ∀ g : Level, g.toInt ≤ Level.InfoLevel.toInt →
          written g (logging next rnd w r).log
            = written g (logStatements (next (logging.request rnd r))) ++ [rec]) ∧
      ∀ (rnd1 : List Byte) (w1 : ResponseRecorder) (r1 : http.Request),
        (serve rnd1 w1 r1).panicked = false ∧
        ((serve rnd1 w1 r1).log.filter isCompletion).length = 1 ∧
        ∃ rec, (serve rnd1 w1 r1).log.getLast? = some rec ∧ isCompletion rec = true := by
  have hlog : (logging.run next rnd w r).log = logStatements (next (logging.request rnd r)) := by
    have h := exec_log (next (logging.request rnd r))
      ({ w := ({ ResponseWriter := w, status := 200 } : statusWriter W),
         log := [], elapsed := 0, panicked := false })
      (by simpa [logging.run, ServeHTTP] using hret)
    simpa [logging.run, ServeHTTP] using h
  refine ⟨by rw [logging_panicked, hret], ?_, ?_⟩
  · refine ⟨logging.record rnd r (logging.run next rnd w r).w.status
      (logging.run next rnd w r).elapsed, record_isCompletion _ _ _ _, ?_, ?_, ?_⟩
    · rw [logging_log next rnd w r hret, hlog]
    · rw [logging_log next rnd w r hret]
      simp
    · intro g hg
      rw [logging_log next rnd w r hret, hlog, written_append]
      congr 1
      simp only [written, List.filter_cons, List.filter_nil]
      have : decide (g.toInt ≤ (logging.record rnd r (logging.run next rnd w r).w.status
          (logging.run next rnd w r).elapsed).level.toInt) = true := by
        simpa [logging.record] using hg
      simp [this]
  · intro rnd1 w1 r1
    have hr := serve_run_returns rnd1 w1 r1
    have hl := logging_log mux rnd1 w1 r1 hr
    have hm := (mux_trace _ _ (Value_request rnd1 r1)).2
    refine ⟨by rw [serve, logging_panicked, hr], ?_, ?_⟩
    · rw [serve, hl, serve_run_log, List.filter_append]
      have hnone : (logStatements (mux (logging.request rnd1 r1))).filter isCompletion = [] := by
        rw [List.filter_eq_nil_iff]
        intro rec hrec
        simp [(hm rec hrec).1]
      rw [hnone]
      simp [record_isCompletion]
    · refine ⟨logging.record rnd1 r1 (logging.run mux rnd1 w1 r1).w.status
        (logging.run mux rnd1 w1 r1).elapsed, ?_, record_isCompletion _ _ _ _⟩
      rw [serve, hl]
      simp

/-- C5 witness: the work handler behind the middleware, on a request for
`/work` without headers. -/
theorem C5_one_completion_record_witness :
    (logging.run workHandler [] NewRecorder
        { healthzRequest with URL := { Path := "/work", query := [] } }).panicked = false ∧
      ((logging workHandler [] NewRecorder
        { healthzRequest with URL := { Path := "/work", query := [] } }).log.map
          fun rec => rec.message)
        = ["starting work", "work had minor issues", "work done", "request completed"] ∧
      (logging workHandler [] NewRecorder
        { healthzRequest with URL := { Path := "/work", query := [] } }).panicked = false :=
  ⟨by decide, by decide,
    (C5_one_completion_record workHandler [] NewRecorder
      { healthzRequest with URL := { Path := "/work", query := [] } } (by decide)).1⟩

/-! ## C6: the two outcomes of the work handler -/

theorem Contains_iff (s substr : String) :
    strings.Contains s substr = true ↔ substr.toList <:+: s.toList := by
  simp only [strings.Contains, List.any_eq_true, List.mem_tails, List.isPrefixOf_iff_prefix,
    List.infix_iff_prefix_suffix]
  constructor
  · rintro ⟨t, ht, hp⟩
    exact ⟨t, hp, ht⟩
  · rintro ⟨t, hp, ht⟩
    exact ⟨t, ht, hp⟩

/-- C6: for a request whose context holds a request id and whose task string
(the `task` query value, `simulate` when that is empty) is `t`, the work handler
returns, and it answers status 500 with body `failed\n` if and only if `t`
contains `fail`.  In that case its records are, in order, the informational
`starting work` and the error `work failed` (no warning).  Otherwise it answers
status 200 with body `ok\n` and its records are, in order, the informational
`starting work`, the warning `work had minor issues` and the informational
`work done` (no error). -/
theorem C6_work_outcome (r : http.Request) (id t : String)
    (hctx : r.Context.Value (.string "req_id") = .string id)
    (ht : (if r.URL.Query.Get "task" = "" then "simulate" else r.URL.Query.Get "task") = t) :
    (ServeHTTP workHandler NewRecorder r).panicked = false ∧
      (((ServeHTTP workHandler NewRecorder r).w.Code = 500 ∧
          (ServeHTTP workHandler NewRecorder r).w.Body = "failed\n")
        ↔ "fail".toList <:+: t.toList) ∧
      ("fail".toList <:+: t.toList →
        (ServeHTTP workHandler NewRecorder r).w.Code = 500 ∧
        (ServeHTTP workHandler NewRecorder r).w.Body = "failed\n" ∧
        ((ServeHTTP workHandler NewRecorder r).log.map fun rec => (rec.level, rec.message))
          = [(.InfoLevel, "starting work"), (.ErrorLevel, "work failed")]) ∧
      (¬ "fail".toList <:+: t.toList →
        (ServeHTTP workHandler NewRecorder r).w.Code = 200 ∧
        (ServeHTTP workHandler NewRecorder r).w.Body = "ok\n" ∧
        ((ServeHTTP workHandler NewRecorder r).log.map fun rec => (rec.level, rec.message))
          = [(.InfoLevel, "starting work"), (.WarnLevel, "work had minor issues"),
              (.InfoLevel, "work done")]) := by
  have hyes : "fail".toList <:+: t.toList →
      (ServeHTTP workHandler NewRecorder r).panicked = false ∧
      (ServeHTTP workHandler NewRecorder r).w.Code = 500 ∧
      (ServeHTTP workHandler NewRecorder r).w.Body = "failed\n" ∧
      ((ServeHTTP workHandler NewRecorder r).log.map fun rec => (rec.level, rec.message))
        = [(.InfoLevel, "starting work"), (.ErrorLevel, "work failed")] := by
    intro hin
    have hc : strings.Contains t "fail" = true := (Contains_iff t "fail").mpr hin
    rw [ServeHTTP, workHandler_eq r id hctx, ht, if_pos hc]
    refine ⟨rfl, rfl, ?_, rfl⟩
    show ("" : String) ++ "failed\n" = "failed\n"
    decide
  have hno : ¬ "fail".toList <:+: t.toList →
      (ServeHTTP workHandler NewRecorder r).panicked = false ∧
      (ServeHTTP workHandler NewRecorder r).w.Code = 200 ∧
      (ServeHTTP workHandler NewRecorder r).w.Body = "ok\n" ∧
      ((ServeHTTP workHandler NewRecorder r).log.map fun rec => (rec.level, rec.message))
        = [(.InfoLevel, "starting work"), (.WarnLevel, "work had minor issues"),
            (.InfoLevel, "work done")] := by
    intro hin
    have hc : ¬ strings.Contains t "fail" = true := fun h => hin ((Contains_iff t "fail").mp h)
    rw [ServeHTTP, workHandler_eq r id hctx, ht, if_neg hc]
    refine ⟨rfl, rfl, ?_, rfl⟩
    show ("" : String) ++ "ok\n" = "ok\n"
    decide
  refine ⟨?_, ?_, fun h => (hyes h).2, fun h => (hno h).2⟩
  · by_cases hin : "fail".toList <:+: t.toList
    · exact (hyes hin).1
    · exact (hno hin).1
  · constructor
    · intro h
      by_contra hin
      have h200 := (hno hin).2.1
      rw [h.1] at h200
      exact absurd h200 (by decide)
    · intro hin
      exact ⟨(hyes hin).2.1, (hyes hin).2.2.1⟩

/-- C6 witness: the task `fail-now`. -/
theorem C6_work_outcome_witness :
    (ServeHTTP workHandler NewRecorder
        { healthzRequest with
          URL := { Path := "/work", query := [("task", ["fail-now"])] },
          ctx := .valueCtx .Background (.string "req_id") (.string "abc123") }).w.Code = 500 ∧
      (ServeHTTP workHandler NewRecorder
        { healthzRequest with
          URL := { Path := "/work", query := [("task", ["fail-now"])] },
          ctx := .valueCtx .Background (.string "req_id") (.string "abc123") }).w.Body
        = "failed\n" :=
  ((C6_work_outcome
      { healthzRequest with
        URL := { Path := "/work", query := [("task", ["fail-now"])] },
        ctx := .valueCtx .Background (.string "req_id") (.string "abc123") }
      "abc123" "fail-now" (by decide) (by decide)).2.1).mpr (by decide)

/-! ## C7: no task parameter behaves as `task=simulate` -/

theorem workHandler_task (r1 r2 : http.Request) (hctx : r1.Context = r2.Context)
    (htask : (if r1.URL.Query.Get "task" = "" then "simulate" else r1.URL.Query.Get "task")
      = (if r2.URL.Query.Get "task" = "" then "simulate" else r2.URL.Query.Get "task")) :
    workHandler r1 = workHandler r2 := by
  unfold workHandler
  simp only [hctx, htask]

/-- C7: for a request whose query has no value for `task` (the parameter is
absent or empty), the work handler performs exactly the same effects as for the
same request with the query `task=simulate`; so its outcome against any response
writer, and the outcome of the middleware wrapped around it, are identical too.
When the context holds a request id that outcome is status 200, body `ok\n`,
and every record has the task field `simulate`. -/
theorem C7_default_task (r : http.Request) (h : r.URL.Query.Get "task" = "") :
    workHandler r
        = workHandler { r with URL := { r.URL with query := [("task", ["simulate"])] } } ∧
      (∀ w : ResponseRecorder, ServeHTTP workHandler w r
        = ServeHTTP workHandler w
            { r with URL := { r.URL with query := [("task", ["simulate"])] } }) ∧
      (∀ (rnd : List Byte) (w : ResponseRecorder), logging workHandler rnd w r
        = logging workHandler rnd w
            { r with URL := { r.URL with query := [("task", ["simulate"])] } }) ∧
      ∀ id : String, r.Context.Value (.string "req_id") = .string id →
        (ServeHTTP workHandler NewRecorder r).w.Code = 200 ∧
        (ServeHTTP workHandler NewRecorder r).w.Body = "ok\n" ∧
        ((ServeHTTP workHandler NewRecorder r).log.map
            fun rec => (rec.level, rec.message, rec.field "task"))
          = [(.InfoLevel, "starting work", some (.str "simulate")),
              (.WarnLevel, "work had minor issues", some (.str "simulate")),
              (.InfoLevel, "work done", some (.str "simulate"))] := by
  have htr : ∀ r0 : http.Request, r0.URL.Query.Get "task" = "" →
      workHandler r0
        = workHandler { r0 with URL := { r0.URL with query := [("task", ["simulate"])] } } := by
    intro r0 h0
    apply workHandler_task
    · rfl
    · rw [h0]
      show (if ("" : String) = "" then "simulate" else "")
        = (if url.Values.Get [("task", ["simulate"])] "task" = "" then "simulate"
            else url.Values.Get [("task", ["simulate"])] "task")
      decide
  refine ⟨htr r h, ?_, ?_, ?_⟩
  · intro w
    rw [ServeHTTP, ServeHTTP, htr r h]
  · intro rnd w
    have hrun : logging.run workHandler rnd w r
        = logging.run workHandler rnd w
            { r with URL := { r.URL with query := [("task", ["simulate"])] } } := by
      show exec (workHandler (logging.request rnd r)) _ = exec (workHandler _) _
      rw [htr (logging.request rnd r) h]
      rfl
    rw [logging_eq, logging_eq, hrun]
    rfl
  · intro id hctx
    have hc : ¬ strings.Contains "simulate" "fail" = true := by decide
    rw [ServeHTTP, workHandler_eq r id hctx]
    simp only [h, if_true, if_neg hc]
    refine ⟨rfl, ?_, rfl⟩
    show ("" : String) ++ "ok\n" = "ok\n"
    decide

/-- C7 witness: a request for `/work` with an empty query. -/
theorem C7_default_task_witness :
    url.Values.Get [] "task" = "" ∧
      workHandler { healthzRequest with URL := { Path := "/work", query := [] } }
        = workHandler
            { healthzRequest with URL := { Path := "/work", query := [("task", ["simulate"])] } } :=
  ⟨by decide,
    (C7_default_task { healthzRequest with URL := { Path := "/work", query := [] } }
      (by decide)).1⟩

/-! ## C8: the health check -/

theorem mux_healthz (r : http.Request) (hpath : r.URL.Path = "/healthz")
    (huri : r.RequestURI ≠ "*") : mux r = healthHandler r := by
  have hclean : cleanPath "/healthz" = "/healthz" := by decide
  have hw : ¬ ("/healthz" = "/work") := by decide
  unfold mux
  simp [hpath, huri, hclean, hw]

/-- C8, as the claim states it, fails: serving `GET /healthz` through the chain
installed in `main` issues one record, the completion record of the middleware,
which passes the default (informational) threshold. -/
theorem C8_healthz_is_logged :
    (serve [] NewRecorder healthzRequest).w.Code = 200 ∧
      (serve [] NewRecorder healthzRequest).w.Body = "healthy\n" ∧
      (serve [] NewRecorder healthzRequest).log ≠ [] ∧
      ((written .InfoLevel (serve [] NewRecorder healthzRequest).log).map
          fun rec => (rec.field "component", rec.field "path", rec.message))
        = [(some (.str "http"), some (.str "/healthz"), "request completed")] := by
  decide

/-- C8, amended: for every request for the path `/healthz` served by
`logging(mux)`, the run returns, the response has status 200 and body
`healthy\n`, the health handler itself has no log statement, and the only record
issued while serving is the completion record of the middleware (status 200). -/
theorem C8_healthz_amended (rnd : List Byte) (r : http.Request)
    (hpath : r.URL.Path = "/healthz") (huri : r.RequestURI ≠ "*") :
    (serve rnd NewRecorder r).panicked = false ∧
      (serve rnd NewRecorder r).w.Code = 200 ∧
      (serve rnd NewRecorder r).w.Body = "healthy\n" ∧
      logStatements (healthHandler (logging.request rnd r)) = [] ∧
      (serve rnd NewRecorder r).log = [logging.record rnd r 200 0] ∧
      isCompletion (logging.record rnd r 200 0) = true := by
  have hm : mux (logging.request rnd r) = healthHandler (logging.request rnd r) :=
    mux_healthz _ hpath huri
  have hrun : logging.run mux rnd NewRecorder r
      = { w := { ResponseWriter :=
                   { Code := 200, HeaderMap := [], Body := "" ++ "healthy\n", wroteHeader := true },
                 status := 200 },
          log := [], elapsed := 0, panicked := false } := by
    show exec (mux (logging.request rnd r)) _ = _
    rw [hm]
    rfl
  have hbody : ("" : String) ++ "healthy\n" = "healthy\n" := by decide
  refine ⟨?_, ?_, ?_, rfl, ?_, record_isCompletion _ _ _ _⟩
  · rw [serve, logging_panicked, hrun]
  · rw [serve, logging_w, hrun]
  · rw [serve, logging_w, hrun]
    exact hbody
  · rw [serve, logging_log mux rnd NewRecorder r (by rw [hrun]), hrun]
    rfl

/-- C8 witness: the request `GET /healthz`. -/
theorem C8_healthz_amended_witness :
    healthzRequest.URL.Path = "/healthz" ∧ healthzRequest.RequestURI ≠ "*" ∧
      (serve [] NewRecorder healthzRequest).log = [logging.record [] healthzRequest 200 0] :=
  ⟨by decide, by decide,
    (C8_healthz_amended [] healthzRequest (by decide) (by decide)).2.2.2.2.1⟩

/-! ## C9: the default status -/

theorem mux_root (r : http.Request) (hpath : r.URL.Path = "/") (huri : r.RequestURI ≠ "*") :
    mux r = helloHandler r := by
  have hclean : cleanPath "/" = "/" := by decide
  have hw : ¬ ("/" = "/work") := by decide
  have hh : ¬ ("/" = "/healthz") := by decide
  have hd : "/".toList.head? = some '/' := by decide
  unfold mux
  simp only [hpath, huri, hclean, hw, hh, hd, if_false, if_true, ne_eq, not_true_eq_false,
    and_false]

/-- C9: when the run of `next` returns without any `WriteHeader` call, the
status the wrapper holds at the end is 200, and so is the `status` field of the
completion record.  The greeting handler is such a handler: a request for `/`
served by `logging(mux)` gets status 200 and body
`hello from go-log-service\n`, and the completion record reports status 200. -/
theorem C9_default_status (next : http.Handler) (rnd : List Byte) {W : Type}
    [http.ResponseWriter W] (w : W) (r : http.Request)
    (hno : writeHeaderCodes (next (logging.request rnd r)) = [])
    (hret : (logging.run next rnd w r).panicked = false) :
    (logging.run next rnd w r).w.status = 200 ∧
      (∃ rec, (logging next rnd w r).log.getLast? = some rec ∧ isCompletion rec = true ∧
        rec.field "status" = some (.int 200)) ∧
      ∀ (rnd1 : List Byte) (r1 : http.Request), r1.URL.Path = "/" → r1.RequestURI ≠ "*" →
        writeHeaderCodes (mux (logging.request rnd1 r1)) = [] ∧
        (serve rnd1 NewRecorder r1).w.Code = 200 ∧
        (serve rnd1 NewRecorder r1).w.Body = "hello from go-log-service\n" ∧
        ∃ rec, (serve rnd1 NewRecorder r1).log.getLast? = some rec ∧ isCompletion rec = true ∧
          rec.field "status" = some (.int 200) := by
  have hst : ∀ (nx : http.Handler) (rd : List Byte) (V : Type) [http.ResponseWriter V] (v : V)
      (rq : http.Request), writeHeaderCodes (nx (logging.request rd rq)) = [] →
      (logging.run nx rd v rq).panicked = false → (logging.run nx rd v rq).w.status = 200 := by
    intro nx rd V _ v rq h1 h2
    have h := exec_status (nx (logging.request rd rq))
      ({ w := ({ ResponseWriter := v, status := 200 } : statusWriter V),
         log := [], elapsed := 0, panicked := false })
      (by simpa [logging.run, ServeHTTP] using h2)
    rw [h1] at h
    simpa [logging.run, ServeHTTP] using h
  have hrec : ∀ (nx : http.Handler) (rd : List Byte) (V : Type) [http.ResponseWriter V] (v : V)
      (rq : http.Request), writeHeaderCodes (nx (logging.request rd rq)) = [] →
      (logging.run nx rd v rq).panicked = false →
      ∃ rec, (logging nx rd v rq).log.getLast? = some rec ∧ isCompletion rec = true ∧
        rec.field "status" = some (.int 200) := by
    intro nx rd V _ v rq h1 h2
    refine ⟨logging.record rd rq (logging.run nx rd v rq).w.status (logging.run nx rd v rq).elapsed,
      ?_, record_isCompletion _ _ _ _, ?_⟩
    · rw [logging_log nx rd v rq h2]
      simp
    · rw [record_status, hst nx rd V v rq h1 h2]
  refine ⟨hst next rnd W w r hno hret, hrec next rnd W w r hno hret, ?_⟩
  intro rnd1 r1 hpath huri
  have hm : mux (logging.request rnd1 r1) = helloHandler (logging.request rnd1 r1) :=
    mux_root _ hpath huri
  have hcodes : writeHeaderCodes (mux (logging.request rnd1 r1)) = [] := by
    rw [hm, helloHandler_eq _ _ (Value_request rnd1 r1)]
    rfl
  have hrun : (logging.run mux rnd1 NewRecorder r1).w.ResponseWriter
      = { Code := 200, HeaderMap := [("Content-Type", ["text/plain; charset=utf-8"])],
          Body := "hello from go-log-service\n", wroteHeader := true } := by
    show (exec (mux (logging.request rnd1 r1))
      ({ w := ({ ResponseWriter := NewRecorder, status := 200 } : statusWriter ResponseRecorder),
         log := [], elapsed := 0, panicked := false })).w.ResponseWriter = _
    rw [hm, helloHandler_eq _ _ (Value_request rnd1 r1)]
    show ResponseRecorder.mk 200
        (http.Header.Set [] "Content-Type" "text/plain; charset=utf-8")
        ("" ++ "hello from go-log-service\n") true = _
    have h1 : http.Header.Set [] "Content-Type" "text/plain; charset=utf-8"
        = [("Content-Type", ["text/plain; charset=utf-8"])] := by decide
    have h2 : ("" : String) ++ "hello from go-log-service\n" = "hello from go-log-service\n" := by
      decide
    rw [h1, h2]
  refine ⟨hcodes, ?_, ?_, hrec mux rnd1 ResponseRecorder NewRecorder r1 hcodes
    (serve_run_returns rnd1 NewRecorder r1)⟩
  · rw [serve, logging_w, hrun]
  · rw [serve, logging_w, hrun]

/-- C9 witness: the greeting handler behind the middleware. -/
theorem C9_default_status_witness :
    writeHeaderCodes (helloHandler (logging.request []
        { healthzRequest with URL := { Path := "/", query := [] } })) = [] ∧
      (logging.run helloHandler [] NewRecorder
        { healthzRequest with URL := { Path := "/", query := [] } }).w.status = 200 :=
  ⟨by decide,
    (C9_default_status helloHandler [] NewRecorder
      { healthzRequest with URL := { Path := "/", query := [] } } (by decide) (by decide)).1⟩

/-! ## C10: the request id is always there for the route handlers -/

theorem noPanic_mem (effects : List Effect) (h : noPanic effects = true) (msg : String) :
    Effect.Panic msg ∉ effects := by
  induction effects with
  | nil => simp
  | cons e rest ih =>
    cases e with
    | Panic m => simp [noPanic] at h
    | WriteHeader code =>
      simp only [noPanic, Bool.and_eq_true] at h
      simpa using ih h.2
    | HeaderSet k v => simpa [noPanic] using ih (by simpa [noPanic] using h)
    | Write data => simpa [noPanic] using ih (by simpa [noPanic] using h)
    | Log rec => simpa [noPanic] using ih (by simpa [noPanic] using h)
    | Sleep ms => simpa [noPanic] using ih (by simpa [noPanic] using h)

/-- C10: for every request served by `logging(mux)`, whatever its headers and
its incoming context, the context of the request the mux receives binds
`req_id` to a string, the resolved correlation id; the type assertion on it
succeeds; the effects of the mux and its route handlers contain no panic and the
run returns; every record issued while serving, the records of the route handler
and the completion record at the end, carries that same id as `request_id`. -/
theorem C10_req_id_is_string (rnd : List Byte) (w : ResponseRecorder) (r : http.Request) :
    (logging.request rnd r).Context.Value (.string "req_id")
        = .string (logging.correlationID rnd r) ∧
      ((logging.request rnd r).Context.Value (.string "req_id")).assertString
        = some (logging.correlationID rnd r) ∧
      (∀ msg : String, Effect.Panic msg ∉ mux (logging.request rnd r)) ∧
      (serve rnd w r).panicked = false ∧
      (∀ rec ∈ (serve rnd w r).log,
        rec.field "request_id" = some (.str (logging.correlationID rnd r))) ∧
      ∃ rec, (serve rnd w r).log.getLast? = some rec ∧ isCompletion rec = true ∧
        rec.field "request_id" = some (.str (logging.correlationID rnd r)) := by
  have hv := Value_request rnd r
  have hm := mux_trace _ _ hv
  have hr := serve_run_returns rnd w r
  have hl := logging_log mux rnd w r hr
  refine ⟨hv, by rw [hv]; rfl, noPanic_mem _ hm.1, by rw [serve, logging_panicked, hr], ?_, ?_⟩
  · intro rec hrec
    rw [serve, hl, serve_run_log, List.mem_append] at hrec
    rcases hrec with hrec | hrec
    · exact (hm.2 rec hrec).2
    · rw [List.mem_singleton] at hrec
      rw [hrec, record_request_id]
  · refine ⟨logging.record rnd r (logging.run mux rnd w r).w.status
      (logging.run mux rnd w r).elapsed, ?_, record_isCompletion _ _ _ _, record_request_id _ _ _ _⟩
    rw [serve, hl]
    simp

end GoService
